import Mathlib

/-
Verification development for the ps_rpg_engine renderer.

The definitions below are a shallow embedding, translated from the Rust
source of the repository:
  - src/renderer/texture_manager.rs  (TextureManager, get_texture)
  - src/renderer.rs                  (Renderer::resize, Renderer::render)
  - src/renderer/post_process.rs     (post-process render system)
  - src/renderer/field.rs            (FieldBackgroundRenderer::render)
  - src/renderer/model.rs            (model render system)
  - src/renderer/camera.rs           (OPENGL_TO_WGPU_MATRIX, LookAtCamera,
                                      PositionRotationCamera)
External crates (std HashMap, the image crate, wgpu, cgmath, bevy_ecs change
detection) are embedded by their documented semantics: hash maps become
association lists, the filesystem and image decoder become an oracle
`DiskEnv`, GPU calls become explicit effect lists, f32 arithmetic is read
as real arithmetic, and cgmath matrix constructors (which take their
arguments in column-major order) become explicit 4x4 real matrices in the
usual row-major mathematical reading.
-/

namespace PsRpg

/-! ## Texture manager (src/renderer/texture_manager.rs) -/

/-- Logical file path, as stored in the manifest (`PathBuf`). -/
abbrev TexPath : Type := String

/-- Result of decoding the image at a path: `image.width()/height()` of the
RGBA8 buffer. -/
structure Image where
  width : Nat
  height : Nat
deriving DecidableEq, Repr

/-- Outcome of `image::io::Reader::open(path)` followed by `.decode()`:
the open can fail (`std::io::Error`), the decode can fail
(`image::ImageError`), or an image is produced. -/
inductive DiskOutcome where
  | openFail
  | decodeFail
  | image (img : Image)
deriving DecidableEq, Repr

/-- Oracle for the filesystem plus image decoder seen by `get_texture`. -/
structure DiskEnv where
  disk : TexPath → DiskOutcome

/-- Error enum `TextureManagerError` from texture_manager.rs:
`FileReadError(std::io::Error)`, `ImageDecodeError(image::ImageError)`,
`NameNotInManifest`. -/
inductive TextureManagerError where
  | fileReadError
  | imageDecodeError
  | nameNotInManifest
deriving DecidableEq, Repr

/-- Observable side effects of one `get_texture` call: the file open, the
image decode, `device.create_texture` and `queue.write_texture` (the GPU
texture is identified by a fresh numeric id; the upload records the decoded
pixel dimensions that size the texture and its rows). -/
inductive TMEffect where
  | fileOpen (p : TexPath)
  | decode (p : TexPath)
  | createTexture (id : Nat)
  | writeTexture (id : Nat) (width : Nat) (height : Nat)
deriving DecidableEq, Repr

/-- Fresh-id state of the wgpu device: `create_texture` returns texture
`nextId` and bumps the counter, so distinct created textures have distinct
identities. -/
structure Device where
  nextId : Nat
deriving DecidableEq, Repr

/-- Association-list lookup standing in for `HashMap::get` /
`HashMap::contains_key` (string keys). -/
def lookupStr {β : Type} : List (String × β) → String → Option β
  | [], _ => none
  | (k, v) :: rest, name => if k = name then some v else lookupStr rest name

/-- `TextureManager { manifest, textures }`: the name→path manifest fixed at
construction and the name→texture cache, with textures identified by id. -/
structure TextureManager where
  manifest : List (String × TexPath)
  textures : List (String × Nat)

/-- `TextureManager::new(texture_paths)`. -/
def TextureManager.new (texturePaths : List (String × TexPath)) : TextureManager :=
  { manifest := texturePaths, textures := [] }

/-- `TextureManager::get_texture(&mut self, device, queue, name)`,
translated branch by branch from texture_manager.rs lines 41-95:
cached name → return the cached texture, no effects; name missing from the
manifest → `NameNotInManifest`; otherwise open and decode the file
(each failure mapped by the `From` impls to `FileReadError` /
`ImageDecodeError`, inserting nothing), create the texture, upload the
pixels, insert under `name` and return the new entry.  The value returned
is the texture id together with the updated manager, device and the list
of effects performed. -/
def TextureManager.getTexture (env : DiskEnv) (dev : Device) (tm : TextureManager)
    (name : String) :
    Except TextureManagerError Nat × TextureManager × Device × List TMEffect :=
  match lookupStr tm.textures name with
  | some t => (Except.ok t, tm, dev, [])
  | none =>
    match lookupStr tm.manifest name with
    | none => (Except.error TextureManagerError.nameNotInManifest, tm, dev, [])
    | some imagePath =>
      match env.disk imagePath with
      | DiskOutcome.openFail =>
        (Except.error TextureManagerError.fileReadError, tm, dev,
         [TMEffect.fileOpen imagePath])
      | DiskOutcome.decodeFail =>
        (Except.error TextureManagerError.imageDecodeError, tm, dev,
         [TMEffect.fileOpen imagePath, TMEffect.decode imagePath])
      | DiskOutcome.image img =>
        (Except.ok dev.nextId,
         { tm with textures := (name, dev.nextId) :: tm.textures },
         { nextId := dev.nextId + 1 },
         [TMEffect.fileOpen imagePath, TMEffect.decode imagePath,
          TMEffect.createTexture dev.nextId,
          TMEffect.writeTexture dev.nextId img.width img.height])

/-! ## Surface resize (src/renderer.rs, Renderer::resize) -/

/-- The mutable part of `wgpu::SurfaceConfiguration` touched by `resize`. -/
structure SurfaceConfig where
  width : Nat
  height : Nat
deriving DecidableEq, Repr

/-- `winit::dpi::PhysicalSize<u32>`. -/
structure PhysicalSize where
  width : Nat
  height : Nat
deriving DecidableEq, Repr

/-- `Renderer::resize(new_size)` from renderer.rs lines 579-585: when both
dimensions are positive the stored surface configuration takes the new
size (and the surface is reconfigured); otherwise nothing happens. -/
def Renderer.resize (cfg : SurfaceConfig) (newSize : PhysicalSize) : SurfaceConfig :=
  if 0 < newSize.width ∧ 0 < newSize.height then
    { cfg with width := newSize.width, height := newSize.height }
  else
    cfg

/-! ## Render passes and their effects -/

/-- Color values as used in `wgpu::Color` (f64 components read as
rationals). -/
structure Color where
  r : ℚ
  g : ℚ
  b : ℚ
  a : ℚ
deriving DecidableEq, Repr

/-- `wgpu::Color::TRANSPARENT`. -/
def transparentColor : Color := { r := 0, g := 0, b := 0, a := 0 }

/-- `wgpu::LoadOp` for a color attachment. -/
inductive LoadOp where
  | clear (c : Color)
  | load
deriving DecidableEq, Repr

/-- Which image a render pass color attachment points at: the intermediate
post-process texture, the acquired surface (swap-chain) image, or some
other view. -/
inductive AttachTarget where
  | postProcessTexture
  | surfaceTexture
  | other (id : Nat)
deriving DecidableEq, Repr

/-- The data of the single color attachment of a
`wgpu::RenderPassDescriptor` as built by the render functions. -/
structure RenderPassDesc where
  target : AttachTarget
  loadOp : LoadOp
  store : Bool
deriving DecidableEq, Repr

/-- View-projection matrices as stored in the camera uniform
(`[[f32; 4]; 4]`), read as rational 4x4 matrices so equality is
decidable. -/
abbrev VP : Type := Matrix (Fin 4) (Fin 4) ℚ

/-- GPU-visible steps a render system performs within one invocation, in
order. -/
inductive RenderEffect where
  | createBindGroup
  | writeCameraBuffer (vp : VP)
  | beginRenderPass (desc : RenderPassDesc)
  | setPipeline
  | setBindGroup (slot : Nat)
  | setVertexBuffer (slot : Nat)
  | draw (vertices : Nat) (instances : Nat)
  | submit
  | present

/-- Render pass descriptor built in `FieldBackgroundRenderer::render`
(field.rs lines 244-256): the destination view passed by the caller,
`LoadOp::Clear(TRANSPARENT)`, store. -/
def fieldBackgroundPass (dest : AttachTarget) : RenderPassDesc :=
  { target := dest, loadOp := LoadOp.clear transparentColor, store := true }

/-- Modelled from the spec: the render-system wiring in the renderer module
root (the module that owns `RenderContext` and schedules the passes) is not
under src/; per the spec the background pass renders the full-screen quad
into the intermediate target, so the `dest_view` handed to
`FieldBackgroundRenderer::render` is a view of the post-process texture
(the in-src draft `Renderer::render` in renderer.rs lines 589 and 629 wires
exactly this view). -/
def fieldBackgroundDest : AttachTarget := AttachTarget.postProcessTexture

/-- `FieldBackgroundRenderer::render(device, queue, dest_view,
field_background)` from field.rs lines 219-269: build the transient bind
group, begin the clearing pass on `dest_view`, draw the 6 quad vertices,
submit. -/
def fieldBackgroundRender (dest : AttachTarget) : List RenderEffect :=
  [RenderEffect.createBindGroup,
   RenderEffect.beginRenderPass (fieldBackgroundPass dest),
   RenderEffect.setPipeline,
   RenderEffect.setBindGroup 0,
   RenderEffect.setVertexBuffer 0,
   RenderEffect.draw 6 1,
   RenderEffect.submit]

/-- Render pass descriptor built in the model render system (model.rs lines
336-347): the post-process texture view, `LoadOp::Load`, store. -/
def modelPass : RenderPassDesc :=
  { target := AttachTarget.postProcessTexture, loadOp := LoadOp.load, store := true }

/-- Modelled from the spec: the `Field` resource lives in the renderer
module root, which is not under src/.  Per the spec and its uses
(`Field::from_gltf(background, depth_background, path)` in main.rs,
`field.view_proj` in model.rs) it carries the two background texture names
and the view-projection matrix extracted from the scene description. -/
structure Field where
  background : String
  depthBackground : String
  viewProj : VP

/-- Contents of the model camera uniform buffer (`camera_buffer`) as of the
previous frame. -/
structure ModelPassState where
  cameraBuffer : VP

/-- Model render system from model.rs lines 316-362: when bevy change
detection flags the `Field` resource (`field.is_changed()`, here the
`fieldChanged` argument) the camera uniform is re-uploaded with
`field.view_proj`; then the pass begins on the post-process texture with
`LoadOp::Load`, draws the 12 cube vertices for 1 instance, and submits. -/
def modelRender (field : Field) (fieldChanged : Bool) (st : ModelPassState) :
    ModelPassState × List RenderEffect :=
  let (st2, pre) :=
    if fieldChanged then
      ({ cameraBuffer := field.viewProj },
       [RenderEffect.writeCameraBuffer field.viewProj])
    else
      (st, [])
  (st2,
   pre ++
   [RenderEffect.beginRenderPass modelPass,
    RenderEffect.setPipeline,
    RenderEffect.setBindGroup 0,
    RenderEffect.setVertexBuffer 0,
    RenderEffect.setVertexBuffer 1,
    RenderEffect.draw 12 1,
    RenderEffect.submit])

/-! ## Post-process pass (src/renderer/post_process.rs) -/

/-- `wgpu::SurfaceError` as returned by `get_current_texture`:
Timeout, Outdated and Lost are the recoverable conditions, OutOfMemory is
fatal. -/
inductive SurfaceError where
  | timeout
  | outdated
  | lost
  | outOfMemory
deriving DecidableEq, Repr

/-- An acquired swap-chain image. -/
structure SurfaceTexture where
  id : Nat
deriving DecidableEq, Repr

/-- Result of running the post-process system: either the process panicked
partway through (with the effects already performed), or it completed with
the listed effects. -/
inductive PpResult where
  | panicked (effectsSoFar : List RenderEffect)
  | completed (effects : List RenderEffect)

/-- Render pass descriptor built in the post-process render system
(post_process.rs lines 165-176): the surface texture view,
`LoadOp::Clear(TRANSPARENT)`, store. -/
def postProcessPass : RenderPassDesc :=
  { target := AttachTarget.surfaceTexture, loadOp := LoadOp.clear transparentColor,
    store := true }

/-- Post-process render system from post_process.rs lines 133-191, with the
acquisition result of `context.surface.get_current_texture()` passed in:
the bind group is built first, then the code calls `.unwrap()` on the
acquisition result (line 157), which panics the process on `Err(_)`;
on `Ok` the pass runs on the surface view and the surface texture is
presented last. -/
def postProcessRender (acquired : Except SurfaceError SurfaceTexture) : PpResult :=
  match acquired with
  | Except.error _ => PpResult.panicked [RenderEffect.createBindGroup]
  | Except.ok _ =>
    PpResult.completed
      [RenderEffect.createBindGroup,
       RenderEffect.beginRenderPass postProcessPass,
       RenderEffect.setPipeline,
       RenderEffect.setBindGroup 0,
       RenderEffect.setVertexBuffer 0,
       RenderEffect.draw 6 1,
       RenderEffect.submit,
       RenderEffect.present]

/-! ## Cameras (src/renderer/camera.rs), over the reals

cgmath `Matrix4::new` takes its sixteen arguments in column-major order;
every matrix below is written in the usual row-major mathematical reading
of the corresponding cgmath constructor.  `cgmath::Deg(d)` converts to
radians as `d * π / 180`. -/

/-- Real 4x4 matrices, the embedding of `cgmath::Matrix4<f32>`. -/
abbrev M4 : Type := Matrix (Fin 4) (Fin 4) ℝ

/-- Real 3-vectors / points (`cgmath::Vector3<f32>`, `Point3<f32>`). -/
structure V3 where
  x : ℝ
  y : ℝ
  z : ℝ

/-- Componentwise difference (`center - eye`). -/
def V3.sub (a b : V3) : V3 := ⟨a.x - b.x, a.y - b.y, a.z - b.z⟩

/-- Componentwise negation. -/
def V3.neg (a : V3) : V3 := ⟨-a.x, -a.y, -a.z⟩

/-- `Vector3::dot`. -/
def V3.dot (a b : V3) : ℝ := a.x * b.x + a.y * b.y + a.z * b.z

/-- `Vector3::cross`. -/
def V3.cross (a b : V3) : V3 :=
  ⟨a.y * b.z - a.z * b.y, a.z * b.x - a.x * b.z, a.x * b.y - a.y * b.x⟩

/-- `Vector3::normalize`: the vector scaled by one over its magnitude
`sqrt (v . v)`. -/
noncomputable def V3.normalize (v : V3) : V3 :=
  let m := Real.sqrt (V3.dot v v)
  ⟨v.x / m, v.y / m, v.z / m⟩

/-- Degrees to radians, the `cgmath::Deg` → `Rad` conversion. -/
noncomputable def degToRad (d : ℝ) : ℝ := d * Real.pi / 180

/-- `OPENGL_TO_WGPU_MATRIX` from camera.rs lines 4-10 (column-major
arguments (1,0,0,0),(0,1,0,0),(0,0,0.5,0),(0,0,0.5,1)). -/
noncomputable def OPENGL_TO_WGPU_MATRIX : M4 :=
  !![1, 0, 0, 0;
     0, 1, 0, 0;
     0, 0, 1/2, 1/2;
     0, 0, 0, 1]

/-- `cgmath::Matrix4::look_at_rh(eye, center, up)`:
`f = (center - eye).normalize()`, `s = f.cross(up).normalize()`,
`u = s.cross(f)`, assembled column-major as
`(s.x, u.x, -f.x, 0 | s.y, u.y, -f.y, 0 | s.z, u.z, -f.z, 0 |
-eye.dot(s), -eye.dot(u), eye.dot(f), 1)`. -/
noncomputable def lookAtRh (eye center up : V3) : M4 :=
  let f := V3.normalize (V3.sub center eye)
  let s := V3.normalize (V3.cross f up)
  let u := V3.cross s f
  !![s.x, s.y, s.z, -(V3.dot eye s);
     u.x, u.y, u.z, -(V3.dot eye u);
     -f.x, -f.y, -f.z, V3.dot eye f;
     0, 0, 0, 1]

/-- `cgmath::perspective(Deg(fovy), aspect, near, far)`, i.e. the
`PerspectiveFov` → `Matrix4` conversion (gluPerspective):
`f = cot(fovy/2)` and the matrix with rows
`(f/aspect,0,0,0)`, `(0,f,0,0)`,
`(0,0,(far+near)/(near-far),2*far*near/(near-far))`, `(0,0,-1,0)`. -/
noncomputable def perspectiveDeg (fovy aspect near far : ℝ) : M4 :=
  let f := 1 / Real.tan (degToRad fovy / 2)
  !![f / aspect, 0, 0, 0;
     0, f, 0, 0;
     0, 0, (far + near) / (near - far), 2 * far * near / (near - far);
     0, 0, -1, 0]

/-- `LookAtCamera` from camera.rs lines 12-21. -/
structure LookAtCamera where
  eye : V3
  target : V3
  up : V3
  aspect : ℝ
  fovy : ℝ
  znear : ℝ
  zfar : ℝ

/-- `LookAtCamera::get_matrix` from camera.rs lines 24-29:
`OPENGL_TO_WGPU_MATRIX * cgmath::perspective(Deg(fovy), aspect, zfar,
znear) * look_at_rh(eye, target, up)` — note the code passes `self.zfar`
and `self.znear`, in that order, into the `near` and `far` parameters of
`cgmath::perspective`. -/
noncomputable def LookAtCamera.getMatrix (c : LookAtCamera) : M4 :=
  OPENGL_TO_WGPU_MATRIX * perspectiveDeg c.fovy c.aspect c.zfar c.znear *
    lookAtRh c.eye c.target c.up

/-- `cgmath::Matrix4::from_translation(v)`. -/
noncomputable def fromTranslation (v : V3) : M4 :=
  !![1, 0, 0, v.x;
     0, 1, 0, v.y;
     0, 0, 1, v.z;
     0, 0, 0, 1]

/-- `cgmath::Matrix4::from_angle_x(Deg(d))`. -/
noncomputable def fromAngleXDeg (d : ℝ) : M4 :=
  let c := Real.cos (degToRad d)
  let s := Real.sin (degToRad d)
  !![1, 0, 0, 0;
     0, c, -s, 0;
     0, s, c, 0;
     0, 0, 0, 1]

/-- `cgmath::Matrix4::from_angle_y(Deg(d))`. -/
noncomputable def fromAngleYDeg (d : ℝ) : M4 :=
  let c := Real.cos (degToRad d)
  let s := Real.sin (degToRad d)
  !![c, 0, s, 0;
     0, 1, 0, 0;
     -s, 0, c, 0;
     0, 0, 0, 1]

/-- `cgmath::Matrix4::from_angle_z(Deg(d))`. -/
noncomputable def fromAngleZDeg (d : ℝ) : M4 :=
  let c := Real.cos (degToRad d)
  let s := Real.sin (degToRad d)
  !![c, -s, 0, 0;
     s, c, 0, 0;
     0, 0, 1, 0;
     0, 0, 0, 1]

/-- `SquareMatrix::invert` for `Matrix4`: `None` when the determinant is
zero, otherwise the inverse. -/
noncomputable def invert (m : M4) : Option M4 :=
  if m.det = 0 then none else some m⁻¹

/-- `PositionRotationCamera` from camera.rs lines 32-40 (rotation in Euler
degrees). -/
structure PositionRotationCamera where
  position : V3
  rotation : V3
  aspect : ℝ
  fovy : ℝ
  znear : ℝ
  zfar : ℝ

/-- The matrix whose inverse `PositionRotationCamera::get_matrix` uses as
the view matrix (camera.rs lines 44-47):
`from_translation(position) * from_angle_x(Deg(rotation.x)) *
from_angle_y(Deg(rotation.y)) * from_angle_z(Deg(rotation.z))`. -/
noncomputable def viewProd (c : PositionRotationCamera) : M4 :=
  fromTranslation c.position * fromAngleXDeg c.rotation.x *
    fromAngleYDeg c.rotation.y * fromAngleZDeg c.rotation.z

/-- `PositionRotationCamera::get_matrix` from camera.rs lines 43-53: invert
the composed translation-rotation matrix (`view.invert().unwrap()` — `none`
here models the unwrap panic) and return
`OPENGL_TO_WGPU_MATRIX * cgmath::perspective(Deg(fovy), aspect, zfar,
znear) * view`. -/
noncomputable def PositionRotationCamera.getMatrix? (c : PositionRotationCamera) :
    Option M4 :=
  (invert (viewProd c)).map
    (fun view => OPENGL_TO_WGPU_MATRIX * perspectiveDeg c.fovy c.aspect c.zfar c.znear * view)

/-- The camera of the spec's look-at test vector: `eye=(0,0,5)`,
`target=(0,0,0)`, `up=(0,1,0)`, `fovy=45°`, `aspect=1`, `near=0.1`,
`far=100`. -/
noncomputable def c6Camera : LookAtCamera :=
  { eye := ⟨0, 0, 5⟩, target := ⟨0, 0, 0⟩, up := ⟨0, 1, 0⟩,
    aspect := 1, fovy := 45, znear := 1/10, zfar := 100 }

/-! ## Concrete scenarios used by the witnesses -/

/-- A decoded 2x3 test image. -/
def sampleImg : Image := { width := 2, height := 3 }

/-- A manifest name. -/
def sampleName : String := "bg"

/-- A name that is in no manifest. -/
def missingName : String := "missing"

/-- The path the manifest maps `sampleName` to. -/
def samplePath : TexPath := "bg.png"

/-- A disk on which every path decodes to `sampleImg`. -/
def envOk : DiskEnv := { disk := fun _ => DiskOutcome.image sampleImg }

/-- A disk on which every open fails. -/
def envOpenFail : DiskEnv := { disk := fun _ => DiskOutcome.openFail }

/-- A fresh manager whose manifest maps `sampleName` to `samplePath`. -/
def sampleTm : TextureManager := TextureManager.new [(sampleName, samplePath)]

/-- A field state whose view-projection equals the camera buffer contents
of the previous frame (the identity matrix), while the resource is
nevertheless flagged changed — e.g. after a mutable access that touched
only a background name. -/
def cexField : Field :=
  { background := sampleName, depthBackground := missingName, viewProj := 1 }

/-! ## Theorems -/

/-- Claim C1: if `get_texture(name)` succeeds then a second call with the
same `name` performs no file open, no image decode, and no GPU texture
creation or upload (its effect list is empty), leaves the manager and the
device untouched, and returns the very same texture entry the first call
returned. -/
theorem getTexture_second_call_cached
    (env : DiskEnv) (dev : Device) (tm : TextureManager) (name : String)
    (t : Nat) (tm' : TextureManager) (dev' : Device) (effs : List TMEffect)
    (h : TextureManager.getTexture env dev tm name = (Except.ok t, tm', dev', effs)) :
    TextureManager.getTexture env dev' tm' name = (Except.ok t, tm', dev', []) := by
  cases hc : lookupStr tm.textures name with
  | some t0 =>
    simp only [TextureManager.getTexture, hc, Prod.mk.injEq, Except.ok.injEq] at h
    obtain ⟨ht, htm, hdev, -⟩ := h
    subst htm
    simp only [TextureManager.getTexture, hc, ht]
  | none =>
    cases hm : lookupStr tm.manifest name with
    | none =>
      simp only [TextureManager.getTexture, hc, hm, Prod.mk.injEq] at h
      exact absurd h.1 (by simp)
    | some p =>
      cases hd : env.disk p with
      | openFail =>
        simp only [TextureManager.getTexture, hc, hm, hd, Prod.mk.injEq] at h
        exact absurd h.1 (by simp)
      | decodeFail =>
        simp only [TextureManager.getTexture, hc, hm, hd, Prod.mk.injEq] at h
        exact absurd h.1 (by simp)
      | image img =>
        simp only [TextureManager.getTexture, hc, hm, hd, Prod.mk.injEq,
          Except.ok.injEq] at h
        obtain ⟨ht, htm, hdev, -⟩ := h
        subst htm
        simp [TextureManager.getTexture, lookupStr, ht]

/-- Witness for C1 at a concrete input: loading `sampleName` on a fresh
manager succeeds with texture id 0, and the second call returns the same
entry with no effects. -/
theorem getTexture_second_call_cached_witness :
    TextureManager.getTexture envOk { nextId := 1 }
      { manifest := [(sampleName, samplePath)], textures := [(sampleName, 0)] }
      sampleName =
      (Except.ok 0,
       { manifest := [(sampleName, samplePath)], textures := [(sampleName, 0)] },
       { nextId := 1 }, []) :=
  getTexture_second_call_cached envOk { nextId := 0 } sampleTm sampleName 0
    { manifest := [(sampleName, samplePath)], textures := [(sampleName, 0)] }
    { nextId := 1 }
    [TMEffect.fileOpen samplePath, TMEffect.decode samplePath,
     TMEffect.createTexture 0, TMEffect.writeTexture 0 2 3]
    rfl

/-- Claim C2: for a name that is neither cached nor in the manifest,
`get_texture` fails with `NameNotInManifest`, performs no effect at all,
and changes nothing. -/
theorem getTexture_name_not_in_manifest
    (env : DiskEnv) (dev : Device) (tm : TextureManager) (name : String)
    (h1 : lookupStr tm.textures name = none)
    (h2 : lookupStr tm.manifest name = none) :
    TextureManager.getTexture env dev tm name =
      (Except.error TextureManagerError.nameNotInManifest, tm, dev, []) := by
  simp only [TextureManager.getTexture, h1, h2]

/-- Witness for C2 at a concrete input: `missingName` is absent from
`sampleTm`'s manifest and cache. -/
theorem getTexture_name_not_in_manifest_witness :
    TextureManager.getTexture envOk { nextId := 0 } sampleTm missingName =
      (Except.error TextureManagerError.nameNotInManifest, sampleTm,
       { nextId := 0 }, []) :=
  getTexture_name_not_in_manifest envOk { nextId := 0 } sampleTm missingName rfl rfl

/-- Claim C3: when the manifest maps an uncached name to a path whose open
or decode fails, `get_texture` returns the corresponding I/O-classed or
decode-classed error with the cache (and device) unchanged and no entry
inserted, and a later call with the same name on a repaired disk performs
the load again and succeeds (no permanent negative caching). -/
theorem getTexture_load_failure_retries
    (env : DiskEnv) (dev : Device) (tm : TextureManager) (name : String)
    (p : TexPath)
    (h1 : lookupStr tm.textures name = none)
    (h2 : lookupStr tm.manifest name = some p)
    (h3 : env.disk p = DiskOutcome.openFail ∨ env.disk p = DiskOutcome.decodeFail) :
    (TextureManager.getTexture env dev tm name =
        (Except.error TextureManagerError.fileReadError, tm, dev,
         [TMEffect.fileOpen p]) ∨
     TextureManager.getTexture env dev tm name =
        (Except.error TextureManagerError.imageDecodeError, tm, dev,
         [TMEffect.fileOpen p, TMEffect.decode p])) ∧
    ∀ (env2 : DiskEnv) (img : Image), env2.disk p = DiskOutcome.image img →
      TextureManager.getTexture env2 dev tm name =
        (Except.ok dev.nextId,
         { tm with textures := (name, dev.nextId) :: tm.textures },
         { nextId := dev.nextId + 1 },
         [TMEffect.fileOpen p, TMEffect.decode p,
          TMEffect.createTexture dev.nextId,
          TMEffect.writeTexture dev.nextId img.width img.height]) := by
  constructor
  · rcases h3 with h3 | h3
    · exact Or.inl (by simp only [TextureManager.getTexture, h1, h2, h3])
    · exact Or.inr (by simp only [TextureManager.getTexture, h1, h2, h3])
  · intro env2 img henv2
    simp only [TextureManager.getTexture, h1, h2, henv2]

/-- Witness for C3 at a concrete input: on `envOpenFail` the load of
`sampleName` fails with `FileReadError` and inserts nothing; on `envOk`
the same call then succeeds and performs the full load. -/
theorem getTexture_load_failure_retries_witness :
    (TextureManager.getTexture envOpenFail { nextId := 0 } sampleTm sampleName =
        (Except.error TextureManagerError.fileReadError, sampleTm, { nextId := 0 },
         [TMEffect.fileOpen samplePath]) ∨
     TextureManager.getTexture envOpenFail { nextId := 0 } sampleTm sampleName =
        (Except.error TextureManagerError.imageDecodeError, sampleTm, { nextId := 0 },
         [TMEffect.fileOpen samplePath, TMEffect.decode samplePath])) ∧
    TextureManager.getTexture envOk { nextId := 0 } sampleTm sampleName =
      (Except.ok 0,
       { manifest := [(sampleName, samplePath)], textures := [(sampleName, 0)] },
       { nextId := 1 },
       [TMEffect.fileOpen samplePath, TMEffect.decode samplePath,
        TMEffect.createTexture 0, TMEffect.writeTexture 0 2 3]) := by
  have h := getTexture_load_failure_retries envOpenFail { nextId := 0 } sampleTm
    sampleName samplePath rfl rfl (Or.inl rfl)
  exact ⟨h.1, h.2 envOk sampleImg rfl⟩

/-- Claim C4: a resize with a zero dimension leaves the stored surface size
unchanged, and folding any sequence of resizes leaves the stored size equal
to the last non-degenerate request (or the initial size when there is
none). -/
theorem resize_zero_noop_and_last_nondegenerate
    (cfg : SurfaceConfig) (l : List PhysicalSize) :
    (∀ s : PhysicalSize, s.width = 0 ∨ s.height = 0 → Renderer.resize cfg s = cfg) ∧
    l.foldl Renderer.resize cfg =
      ((l.filter fun s => decide (0 < s.width ∧ 0 < s.height)).getLast?).elim cfg
        (fun s => { width := s.width, height := s.height }) := by
  constructor
  · intro s hs
    unfold Renderer.resize
    rw [if_neg]
    rcases hs with h | h <;> omega
  · induction l generalizing cfg with
    | nil => simp
    | cons s t ih =>
      by_cases h : 0 < s.width ∧ 0 < s.height
      · rw [List.foldl_cons, List.filter_cons_of_pos (by simpa using h)]
        rw [show Renderer.resize cfg s = { width := s.width, height := s.height } by
          unfold Renderer.resize; rw [if_pos h]]
        rw [ih]
        cases hf : (t.filter fun s => decide (0 < s.width ∧ 0 < s.height)).getLast? with
        | none =>
          have hnil := List.getLast?_eq_none_iff.mp hf
          rw [hnil]
          simp
        | some x =>
          have hne : (t.filter fun s => decide (0 < s.width ∧ 0 < s.height)) ≠ [] := by
            intro hnil; rw [hnil] at hf; simp at hf
          rcases List.exists_cons_of_ne_nil hne with ⟨y, ys, hys⟩
          rw [hys] at hf ⊢
          rw [List.getLast?_cons_cons, hf]
          simp
      · rw [List.foldl_cons, List.filter_cons_of_neg (by simpa using h)]
        rw [show Renderer.resize cfg s = cfg by unfold Renderer.resize; rw [if_neg h]]
        exact ih cfg

/-- Witness for C4 at concrete inputs: a zero-width resize is a no-op, and
a sequence containing a degenerate request ends at the last valid size. -/
theorem resize_zero_noop_and_last_nondegenerate_witness :
    Renderer.resize { width := 640, height := 800 } { width := 0, height := 5 } =
      { width := 640, height := 800 } ∧
    [({ width := 800, height := 600 } : PhysicalSize),
     { width := 0, height := 5 }].foldl Renderer.resize
        { width := 640, height := 800 } =
      { width := 800, height := 600 } := by
  constructor
  · exact (resize_zero_noop_and_last_nondegenerate { width := 640, height := 800 }
      []).1 { width := 0, height := 5 } (Or.inl rfl)
  · have h := (resize_zero_noop_and_last_nondegenerate { width := 640, height := 800 }
      [{ width := 800, height := 600 }, { width := 0, height := 5 }]).2
    simpa using h

/-- Claim C5 (code-bug evidence): on a recoverable surface-lost/outdated
acquisition failure the post-process render system panics the process
(the `.unwrap()` at post_process.rs line 157) instead of skipping the frame
and surfacing the error, contradicting the claim. -/
theorem postProcessRender_panics_on_recoverable_failure :
    postProcessRender (Except.error SurfaceError.outdated) =
      PpResult.panicked [RenderEffect.createBindGroup] := rfl

/-- Claim C8: within a frame the background pass begins its render pass on
the intermediate post-process target with a clear-to-transparent load
operation, while the model pass begins its render pass with a plain load
operation on the same target, so the model draw composites on top of the
background output. -/
theorem background_clears_model_loads_same_target :
    (RenderEffect.beginRenderPass (fieldBackgroundPass fieldBackgroundDest) ∈
        fieldBackgroundRender fieldBackgroundDest) ∧
    (fieldBackgroundPass fieldBackgroundDest).loadOp = LoadOp.clear transparentColor ∧
    (∀ (field : Field) (fieldChanged : Bool) (st : ModelPassState),
        RenderEffect.beginRenderPass modelPass ∈ (modelRender field fieldChanged st).2) ∧
    modelPass.loadOp = LoadOp.load ∧
    (fieldBackgroundPass fieldBackgroundDest).target = modelPass.target := by
  refine ⟨?_, rfl, ?_, rfl, rfl⟩
  · simp [fieldBackgroundRender]
  · intro field fieldChanged st
    cases fieldChanged <;> simp [modelRender]

/-- Claim C9 as stated is false on the code: in a frame whose `Field`
resource is flagged changed but whose view-projection equals the camera
buffer contents of the previous frame, the model pass still writes the
camera uniform buffer, so the write is not equivalent to a view-projection
change. -/
theorem modelRender_write_despite_unchanged_viewproj :
    ¬ ((∃ vp, RenderEffect.writeCameraBuffer vp ∈
          (modelRender cexField true { cameraBuffer := cexField.viewProj }).2) ↔
        cexField.viewProj ≠ cexField.viewProj) := by
  intro hiff
  exact (hiff.mp ⟨cexField.viewProj, by simp [modelRender]⟩) rfl

/-- Claim C9, amended: the model pass writes new contents to its camera
uniform buffer in a frame if and only if the `Field` resource is flagged
changed by bevy change detection (`field.is_changed()`) — an
over-approximation of a view-projection change, since the flag covers the
whole resource and is set by mutable access regardless of value. -/
theorem modelRender_write_iff_field_flagged
    (field : Field) (fieldChanged : Bool) (st : ModelPassState) :
    ((∃ vp, RenderEffect.writeCameraBuffer vp ∈
        (modelRender field fieldChanged st).2) ↔ fieldChanged = true) := by
  cases fieldChanged with
  | false => simp [modelRender]
  | true =>
    refine ⟨fun _ => rfl, fun _ => ⟨field.viewProj, ?_⟩⟩
    simp [modelRender]

/-! ## Camera lemmas -/

/-- The 4x4 identity written out entrywise. -/
theorem one_M4 : (1 : M4) =
    !![1, 0, 0, 0; 0, 1, 0, 0; 0, 0, 1, 0; 0, 0, 0, 1] := by
  ext i j
  fin_cases i <;> fin_cases j <;>
    simp [Matrix.one_apply, Matrix.vecHead, Matrix.vecTail, Function.comp]

/-- Degree-to-radian conversion commutes with negation. -/
theorem degToRad_neg (d : ℝ) : degToRad (-d) = -degToRad d := by
  unfold degToRad; ring

/-- Translating by `v` then by `-v` is the identity. -/
theorem fromTranslation_mul_neg (v : V3) :
    fromTranslation v * fromTranslation (V3.neg v) = 1 := by
  rw [one_M4]
  ext i j
  fin_cases i <;> fin_cases j <;>
    simp [fromTranslation, V3.neg, Matrix.mul_apply, Fin.sum_univ_four,
      Matrix.vecHead, Matrix.vecTail, Function.comp]

/-- Rotating about x by `d` then by `-d` degrees is the identity. -/
theorem fromAngleXDeg_mul_neg (d : ℝ) :
    fromAngleXDeg d * fromAngleXDeg (-d) = 1 := by
  have h := Real.sin_sq_add_cos_sq (degToRad d)
  rw [one_M4]
  ext i j
  fin_cases i <;> fin_cases j <;>
    simp [fromAngleXDeg, degToRad_neg, Matrix.mul_apply, Fin.sum_univ_four,
      Real.cos_neg, Real.sin_neg, Matrix.vecHead, Matrix.vecTail, Function.comp] <;>
    nlinarith [h]

/-- Rotating about y by `d` then by `-d` degrees is the identity. -/
theorem fromAngleYDeg_mul_neg (d : ℝ) :
    fromAngleYDeg d * fromAngleYDeg (-d) = 1 := by
  have h := Real.sin_sq_add_cos_sq (degToRad d)
  rw [one_M4]
  ext i j
  fin_cases i <;> fin_cases j <;>
    simp [fromAngleYDeg, degToRad_neg, Matrix.mul_apply, Fin.sum_univ_four,
      Real.cos_neg, Real.sin_neg, Matrix.vecHead, Matrix.vecTail, Function.comp] <;>
    nlinarith [h]

/-- Rotating about z by `d` then by `-d` degrees is the identity. -/
theorem fromAngleZDeg_mul_neg (d : ℝ) :
    fromAngleZDeg d * fromAngleZDeg (-d) = 1 := by
  have h := Real.sin_sq_add_cos_sq (degToRad d)
  rw [one_M4]
  ext i j
  fin_cases i <;> fin_cases j <;>
    simp [fromAngleZDeg, degToRad_neg, Matrix.mul_apply, Fin.sum_univ_four,
      Real.cos_neg, Real.sin_neg, Matrix.vecHead, Matrix.vecTail, Function.comp] <;>
    nlinarith [h]

/-- A matrix with a right inverse has nonzero determinant. -/
theorem det_ne_zero_of_mul_eq_one {A B : M4} (h : A * B = 1) : A.det ≠ 0 := by
  intro h0
  have hd : A.det * B.det = 1 := by rw [← Matrix.det_mul, h, Matrix.det_one]
  rw [h0, zero_mul] at hd
  exact zero_ne_one hd

/-- The translation-times-Euler-rotations view product always has nonzero
determinant. -/
theorem viewProd_det_ne_zero (c : PositionRotationCamera) :
    (viewProd c).det ≠ 0 := by
  unfold viewProd
  rw [Matrix.det_mul, Matrix.det_mul, Matrix.det_mul]
  exact mul_ne_zero
    (mul_ne_zero
      (mul_ne_zero
        (det_ne_zero_of_mul_eq_one (fromTranslation_mul_neg c.position))
        (det_ne_zero_of_mul_eq_one (fromAngleXDeg_mul_neg c.rotation.x)))
      (det_ne_zero_of_mul_eq_one (fromAngleYDeg_mul_neg c.rotation.y)))
    (det_ne_zero_of_mul_eq_one (fromAngleZDeg_mul_neg c.rotation.z))

/-- The cgmath-style inversion of the view product always succeeds. -/
theorem invert_viewProd (c : PositionRotationCamera) :
    invert (viewProd c) = some (viewProd c)⁻¹ := by
  unfold invert
  rw [if_neg (viewProd_det_ne_zero c)]

/-- Claim C7: for every position and rotation (and projection parameters),
`PositionRotationCamera::get_matrix` is non-fallible — the internal
inversion of the composed translation-rotation view matrix succeeds, so a
matrix is returned and the `.unwrap()` cannot panic. -/
theorem positionRotationCamera_getMatrix_total (c : PositionRotationCamera) :
    (PositionRotationCamera.getMatrix? c).isSome = true := by
  unfold PositionRotationCamera.getMatrix?
  rw [invert_viewProd c]
  rfl

/-- Claim C10: the view matrix `PositionRotationCamera::get_matrix` uses is
exactly the inverse of `from_translation(position) * Rx(rotation.x) *
Ry(rotation.y) * Rz(rotation.z)` — Euler rotations applied in
X-then-Y-then-Z order about fixed axes, with angles in degrees. -/
theorem positionRotationCamera_view_inverse_order (c : PositionRotationCamera) :
    PositionRotationCamera.getMatrix? c =
      some (OPENGL_TO_WGPU_MATRIX * perspectiveDeg c.fovy c.aspect c.zfar c.znear *
        (fromTranslation c.position * fromAngleXDeg c.rotation.x *
          fromAngleYDeg c.rotation.y * fromAngleZDeg c.rotation.z)⁻¹) := by
  unfold PositionRotationCamera.getMatrix?
  rw [invert_viewProd c]
  rfl

/-- The right-handed look-at view matrix of the spec's test camera,
evaluated: eye `(0,0,5)` looking at the origin with up `(0,1,0)`. -/
theorem lookAt_c6_eval :
    lookAtRh ⟨0, 0, 5⟩ ⟨0, 0, 0⟩ ⟨0, 1, 0⟩ =
      !![1, 0, 0, 0; 0, 1, 0, 0; 0, 0, 1, -5; 0, 0, 0, 1] := by
  ext i j
  fin_cases i <;> fin_cases j <;>
    simp [lookAtRh, V3.normalize, V3.sub, V3.cross, V3.dot, Matrix.vecHead,
      Matrix.vecTail, Function.comp]

/-- Applying the remap-perspective-view product of the test camera to a
point `(0,0,z)` (homogeneous), for arbitrary near/far arguments of the
projection. -/
theorem mulVec_remap_persp_view (near far z : ℝ) :
    (OPENGL_TO_WGPU_MATRIX * perspectiveDeg 45 1 near far *
        !![1, 0, 0, 0; 0, 1, 0, 0; 0, 0, 1, -5; 0, 0, 0, 1]).mulVec
      ![0, 0, z, 1] =
      ![0, 0,
        ((far + near) / (near - far) * (z - 5) + 2 * far * near / (near - far)) / 2 +
          (5 - z) / 2,
        5 - z] := by
  funext k
  fin_cases k <;>
    simp [OPENGL_TO_WGPU_MATRIX, perspectiveDeg, Matrix.mulVec, Matrix.dotProduct,
      Matrix.mul_apply, Fin.sum_univ_four, Matrix.vecHead, Matrix.vecTail,
      Function.comp] <;>
    ring

/-- The matrix the code computes for the test camera: the depth remap times
`cgmath::perspective` called with `(near, far) = (100, 1/10)` — the swapped
order — times the evaluated look-at view matrix. -/
theorem getMatrix_c6_form :
    LookAtCamera.getMatrix c6Camera =
      OPENGL_TO_WGPU_MATRIX * perspectiveDeg 45 1 100 (1/10) *
        !![1, 0, 0, 0; 0, 1, 0, 0; 0, 0, 1, -5; 0, 0, 0, 1] := by
  rw [show LookAtCamera.getMatrix c6Camera =
      OPENGL_TO_WGPU_MATRIX * perspectiveDeg 45 1 100 (1/10) *
        lookAtRh ⟨0, 0, 5⟩ ⟨0, 0, 0⟩ ⟨0, 1, 0⟩ from rfl,
    lookAt_c6_eval]

/-- Claim C6 as stated is false on the code: for the spec's test camera the
returned matrix is not the depth-range remap times the perspective
projection for `near = 0.1, far = 100` times the look-at view matrix,
because `get_matrix` passes `zfar` and `znear` swapped into the `near` and
`far` parameters of `cgmath::perspective`. -/
theorem lookAt_getMatrix_ne_standard_perspective :
    LookAtCamera.getMatrix c6Camera ≠
      OPENGL_TO_WGPU_MATRIX * perspectiveDeg 45 1 (1/10) 100 *
        lookAtRh ⟨0, 0, 5⟩ ⟨0, 0, 0⟩ ⟨0, 1, 0⟩ := by
  rw [getMatrix_c6_form, lookAt_c6_eval]
  intro h
  have hv : (OPENGL_TO_WGPU_MATRIX * perspectiveDeg 45 1 100 (1/10) *
        !![1, 0, 0, 0; 0, 1, 0, 0; 0, 0, 1, -5; 0, 0, 0, 1]).mulVec ![0, 0, 0, 1] =
      (OPENGL_TO_WGPU_MATRIX * perspectiveDeg 45 1 (1/10) 100 *
        !![1, 0, 0, 0; 0, 1, 0, 0; 0, 0, 1, -5; 0, 0, 0, 1]).mulVec ![0, 0, 0, 1] := by
    rw [h]
  rw [mulVec_remap_persp_view 100 (1/10) 0, mulVec_remap_persp_view (1/10) 100 0] at hv
  have h2 := congrFun hv 2
  norm_num [Matrix.vecHead, Matrix.vecTail, Function.comp] at h2

/-- Claim C6, amended: for the spec's test camera, `get_matrix` returns the
depth-range remap matrix times `cgmath::perspective` with the near and far
arguments swapped (`near = 100, far = 0.1`) times the right-handed look-at
view matrix, and the resulting matrix still maps the origin (in front of
the camera) differently from the point `(0,0,10)` behind the camera,
establishing the forward direction. -/
theorem lookAt_getMatrix_swapped_perspective_forward :
    LookAtCamera.getMatrix c6Camera =
      OPENGL_TO_WGPU_MATRIX * perspectiveDeg 45 1 100 (1/10) *
        lookAtRh ⟨0, 0, 5⟩ ⟨0, 0, 0⟩ ⟨0, 1, 0⟩ ∧
    (LookAtCamera.getMatrix c6Camera).mulVec ![0, 0, 0, 1] ≠
      (LookAtCamera.getMatrix c6Camera).mulVec ![0, 0, 10, 1] := by
  refine ⟨rfl, ?_⟩
  rw [getMatrix_c6_form, mulVec_remap_persp_view 100 (1/10) 0,
    mulVec_remap_persp_view 100 (1/10) 10]
  intro h
  have h3 := congrFun h 3
  norm_num [Matrix.vecHead, Matrix.vecTail, Function.comp] at h3

end PsRpg
